import Mathlib

/-!
Verification development for the app-template repository.

Part 1 embeds the `UserService` CRUD/authorization facade
(packages/shared-services/src/services/UserService.ts) together with the
list-backed semantics of its Prisma data-source adapter
(packages/shared-services/src/adapters/PrismaDataSource.ts): the user table
is a `List IUser`, `findUnique` is `List.find?` on the unique column, and
`findMany`'s `orderBy createdAt desc` is a stable descending sort.

Part 2 embeds the rotating log writer (the `Logger` class): buffer,
flush, size-based rotation and delete-oldest retention.  The filesystem is
a directory of named files with contents and modification times; the
`fs`/`path` node modules are modelled by explicit state passing, and a
failing `fs.appendFileSync` is injected through an environment flag so the
catch-block behaviour of `flush` is observable.
-/

set_option linter.unusedVariables false

/-- User roles (the `UserRole` values used by `UserService`). -/
inductive UserRole where
  | USER
  | MANAGER
  | SUPER_ADMIN
  deriving DecidableEq, Repr

/-- User statuses (the `UserStatus` values used by `UserService`). -/
inductive UserStatus where
  | PENDING_VERIFICATION
  | ACTIVE
  | INACTIVE
  | SUSPENDED
  deriving DecidableEq, Repr

/-- Full user record (`IUser`).
Modelled from the spec: the `IUser` interface itself lives in
`packages/shared-types` (not included in the sources); its public fields are
exactly the nine fields read by `UserService.toPublicUser`, and the
sensitive fields `password` and `refreshToken` are the ones the spec and the
Prisma adapter (`PrismaDataSource.createUser` stores `password`) and the
auth flow (refresh tokens) attach to a stored user row. -/
structure IUser where
  id : String
  email : String
  firstName : Option String
  lastName : Option String
  profilePhoto : Option String
  role : UserRole
  status : UserStatus
  emailVerified : Bool
  createdAt : Nat
  password : String
  refreshToken : Option String
  deriving DecidableEq, Repr

/-- Public user view (`IUserPublic`): exactly the nine fields produced by
`UserService.toPublicUser`. -/
structure IUserPublic where
  id : String
  email : String
  firstName : Option String
  lastName : Option String
  profilePhoto : Option String
  role : UserRole
  status : UserStatus
  emailVerified : Bool
  createdAt : Nat
  deriving DecidableEq, Repr

/-- Input of `createUser` (`ICreateUser` extended with the optional `role`
and `status` accepted by `UserService.createUser`). -/
structure ICreateUserData where
  email : String
  password : String
  firstName : Option String
  lastName : Option String
  role : Option UserRole
  status : Option UserStatus
  deriving DecidableEq, Repr

/-- Update payload (`IUpdateUser`): optional fields, only provided ones are
written. -/
structure IUpdateUser where
  email : Option String
  firstName : Option String
  lastName : Option String
  profilePhoto : Option String
  status : Option UserStatus
  deriving DecidableEq, Repr

/-- Errors thrown by `UserService`, one constructor per `throw new Error`
message in the source. -/
inductive UserServiceError where
  | invalidEmailFormat
  | userAlreadyExists
  | userNotFound
  | unauthorizedModify
  | unauthorizedDelete
  | emailAlreadyInUse
  | unauthorizedViewByRole
  deriving DecidableEq, Repr

/-- The characters matched by the JavaScript regex class `\s` that can occur
in the inputs we consider (the ASCII whitespace characters and the two
common non-ASCII ones). -/
def isJsWhitespace (c : Char) : Bool :=
  c = ' ' || c = '\t' || c = '\n' || c = '\r' ||
  c = '\x0b' || c = '\x0c' || c = ' ' || c = '﻿'

/-- Splitting a character list at every occurrence of a separator; the
result always has one more group than there are separators. -/
def splitOnChar (sep : Char) : List Char → List (List Char)
  | [] => [[]]
  | c :: rest =>
      match splitOnChar sep rest with
      | [] => [[]]
      | g :: gs => if c = sep then [] :: g :: gs else (c :: g) :: gs

/-- Embedding of `UserService.isValidEmail`, i.e. of the anchored regex
`/^[^\s@]+@[^\s@]+\.[^\s@]+$/`: the string must consist of exactly one `@`
separating a nonempty local part without whitespace or `@` from a domain
part without whitespace or `@` that contains a dot in an internal position
(so that both `[^\s@]+` groups around the dot are nonempty; `.` itself is
an `[^\s@]` character, so either group may contain further dots). -/
def isValidEmail (email : String) : Bool :=
  match splitOnChar '@' email.toList with
  | [l, d] =>
      decide (0 < l.length) &&
      l.all (fun c => !isJsWhitespace c) &&
      d.all (fun c => !isJsWhitespace c) &&
      ((d.drop 1).dropLast.contains '.')
  | _ => false

/-- Stable insertion of an element into a list: it goes before the first
element it may precede.  Together with `sortBy` this models the stable
comparator sorts the sources rely on (V8's `Array.prototype.sort`, Prisma's
`orderBy`). -/
def insertBy {α : Type} (le : α → α → Bool) (x : α) : List α → List α
  | [] => [x]
  | y :: ys => if le x y then x :: y :: ys else y :: insertBy le x ys

/-- Stable sort by a boolean comparator (insertion sort). -/
def sortBy {α : Type} (le : α → α → Bool) : List α → List α
  | [] => []
  | x :: xs => insertBy le x (sortBy le xs)

/-- The `UserService` instance state: the defaults chosen in the
constructor (`options.defaultRole || UserRole.USER`,
`options.defaultStatus || UserStatus.PENDING_VERIFICATION`). -/
structure UserService where
  defaultRole : UserRole
  defaultStatus : UserStatus
  deriving DecidableEq, Repr

namespace UserService

/-- The Prisma adapter's `getUserByEmail` (`findUnique` on the unique
`email` column): exact, case-sensitive string equality. -/
def getUserByEmailDS (db : List IUser) (email : String) : Option IUser :=
  db.find? (fun u => u.email = email)

/-- The Prisma adapter's `getUserById` (`findUnique` on the `id` column). -/
def getUserByIdDS (db : List IUser) (id : String) : Option IUser :=
  db.find? (fun u => u.id = id)

/-- The Prisma adapter's `getUsersByRole` (`findMany` filtered by role,
`orderBy createdAt desc`). -/
def getUsersByRoleDS (db : List IUser) (role : UserRole) : List IUser :=
  sortBy (fun a b => decide (b.createdAt ≤ a.createdAt))
    (db.filter (fun u => u.role = role))

/-- Embedding of `UserService.toPublicUser`: project the nine public
fields, dropping everything else. -/
def toPublicUser (user : IUser) : IUserPublic :=
  { id := user.id
    email := user.email
    firstName := user.firstName
    lastName := user.lastName
    profilePhoto := user.profilePhoto
    role := user.role
    status := user.status
    emailVerified := user.emailVerified
    createdAt := user.createdAt }

/-- Embedding of `UserService.canModifyUser`: self, then SUPER_ADMIN, then
MANAGER, in the source's order.  An absent `requestingUserId` compares
unequal to every target id (JS `===` against `undefined`). -/
def canModifyUser (targetUserId : String) (requestingUserId : Option String)
    (requestingUserRole : Option UserRole) : Bool :=
  if requestingUserId = some targetUserId then true
  else if requestingUserRole = some UserRole.SUPER_ADMIN then true
  else if requestingUserRole = some UserRole.MANAGER then true
  else false

/-- Embedding of `UserService.canDeleteUser`: self-delete is refused, then
only SUPER_ADMIN may delete. -/
def canDeleteUser (targetUser : IUser) (requestingUserId : Option String)
    (requestingUserRole : Option UserRole) : Bool :=
  if requestingUserId = some targetUser.id then false
  else requestingUserRole = some UserRole.SUPER_ADMIN

/-- Embedding of `UserService.canViewUsersByRole`. -/
def canViewUsersByRole (requestingUserRole : Option UserRole) : Bool :=
  requestingUserRole = some UserRole.SUPER_ADMIN ||
  requestingUserRole = some UserRole.MANAGER

/-- Embedding of `UserService.createUser` over the list-backed data source.
`freshRow` stands for the database's row construction (id, timestamps);
the service itself only validates, fills defaults and projects the result.
Failure returns the thrown error; on failure no row is added. -/
def createUser (svc : UserService) (db : List IUser) (data : ICreateUserData)
    (freshRow : ICreateUserData → IUser) :
    Except UserServiceError (List IUser × IUserPublic) :=
  if !isValidEmail data.email then .error .invalidEmailFormat
  else
    match getUserByEmailDS db data.email with
    | some _ => .error .userAlreadyExists
    | none =>
        let userData : ICreateUserData :=
          { data with
            role := some (data.role.getD svc.defaultRole)
            status := some (data.status.getD svc.defaultStatus) }
        let user := freshRow userData
        .ok (db ++ [user], toPublicUser user)

/-- Embedding of `UserService.getUserById`. -/
def getUserById (db : List IUser) (id : String) : Option IUserPublic :=
  (getUserByIdDS db id).map toPublicUser

/-- JS truthiness of the optional `email` field of an update payload
(`data.email` is falsy when absent or the empty string). -/
def emailTruthy (data : IUpdateUser) : Bool :=
  match data.email with
  | some e => e ≠ ""
  | none => false

/-- The Prisma `update`: overwrite exactly the provided fields. -/
def applyUpdate (u : IUser) (data : IUpdateUser) : IUser :=
  { u with
    email := data.email.getD u.email
    firstName := match data.firstName with | some v => some v | none => u.firstName
    lastName := match data.lastName with | some v => some v | none => u.lastName
    profilePhoto := match data.profilePhoto with | some v => some v | none => u.profilePhoto
    status := match data.status with | some v => v | none => u.status }

/-- Embedding of `UserService.updateUser`: existence check, then
authorization, then email format, then email uniqueness (only when the
email is being changed), then the write. -/
def updateUser (svc : UserService) (db : List IUser) (id : String)
    (data : IUpdateUser) (requestingUserId : Option String)
    (requestingUserRole : Option UserRole) :
    Except UserServiceError (List IUser × IUserPublic) :=
  match getUserByIdDS db id with
  | none => .error .userNotFound
  | some existingUser =>
      if !canModifyUser id requestingUserId requestingUserRole then
        .error .unauthorizedModify
      else if emailTruthy data && !isValidEmail (data.email.getD "") then
        .error .invalidEmailFormat
      else if emailTruthy data && data.email.getD "" ≠ existingUser.email &&
          (getUserByEmailDS db (data.email.getD "")).isSome then
        .error .emailAlreadyInUse
      else
        let updatedUser := applyUpdate existingUser data
        .ok (db.map (fun u => if u.id = id then updatedUser else u),
             toPublicUser updatedUser)

/-- Embedding of `UserService.deleteUser`: existence check, then
authorization, then the delete. -/
def deleteUser (db : List IUser) (id : String)
    (requestingUserId : Option String)
    (requestingUserRole : Option UserRole) :
    Except UserServiceError (List IUser) :=
  match getUserByIdDS db id with
  | none => .error .userNotFound
  | some user =>
      if !canDeleteUser user requestingUserId requestingUserRole then
        .error .unauthorizedDelete
      else .ok (db.filter (fun u => u.id ≠ id))

/-- Embedding of `UserService.getUsersByRole`. -/
def getUsersByRole (db : List IUser) (role : UserRole)
    (requestingUserRole : Option UserRole) :
    Except UserServiceError (List IUserPublic) :=
  if !canViewUsersByRole requestingUserRole then .error .unauthorizedViewByRole
  else .ok ((getUsersByRoleDS db role).map toPublicUser)

end UserService

/-- The spec's authorization table for "modify", rows evaluated in order
with the first match winning: self, SUPER_ADMIN, MANAGER, other.  This
definition follows the spec's words, to be compared with the source's
`canModifyUser`. -/
def specTableModify (isSelf : Bool) (requesterRole : Option UserRole) : Bool :=
  if isSelf then true
  else if requesterRole = some UserRole.SUPER_ADMIN then true
  else if requesterRole = some UserRole.MANAGER then true
  else false

/-- The spec's authorization table for "delete", rows evaluated in order
with the first match winning: self is forbidden, SUPER_ADMIN allowed,
MANAGER forbidden, other forbidden.  This definition follows the spec's
words, to be compared with the source's `canDeleteUser`. -/
def specTableDelete (isSelf : Bool) (requesterRole : Option UserRole) : Bool :=
  if isSelf then false
  else if requesterRole = some UserRole.SUPER_ADMIN then true
  else if requesterRole = some UserRole.MANAGER then false
  else false

namespace Logger

/-- Log levels (the `LogLevel` enum): ERROR=0, WARN=1, INFO=2, DEBUG=3. -/
inductive LogLevel where
  | ERROR
  | WARN
  | INFO
  | DEBUG
  deriving DecidableEq, Repr

/-- Numeric value of a level, as declared in the enum. -/
def LogLevel.toNat : LogLevel → Nat
  | .ERROR => 0
  | .WARN => 1
  | .INFO => 2
  | .DEBUG => 3

/-- Reverse enum mapping `LogLevel[entry.level]`. -/
def LogLevel.levelName : LogLevel → String
  | .ERROR => "ERROR"
  | .WARN => "WARN"
  | .INFO => "INFO"
  | .DEBUG => "DEBUG"

/-- JS `String.prototype.padEnd` with the space filler. -/
def padEnd (s : String) (n : Nat) : String :=
  s ++ String.mk (List.replicate (n - s.length) ' ')

/-- A formatted log entry (`LogEntry`).  `dataTruthy` records the JS
truthiness of `entry.data`, and `dataJson` the text
`JSON.stringify(entry.data, null, 2)` would produce; the serialiser itself
is a JS builtin and is carried as data here. -/
structure LogEntry where
  level : LogLevel
  message : String
  timestamp : String
  context : Option String
  dataTruthy : Bool
  dataJson : String
  stack : Option String
  deriving DecidableEq, Repr

/-- The `data?` argument of `log`: absent, an `Error` value (with name,
message, stack and the JSON rendering of the `{name, message, stack\x7d`
object `log` substitutes for it), or any other value together with its
truthiness and JSON rendering. -/
inductive JsData where
  | undefinedVal
  | errorVal (errName errMessage : String) (stack : Option String) (json : String)
  | plainVal (truthy : Bool) (json : String)
  deriving DecidableEq, Repr

/-- Console channels used by `log`'s switch. -/
inductive ConsoleChannel where
  | errorCh
  | warnCh
  | infoCh
  | logCh
  deriving DecidableEq, Repr

/-- One line written to the console sink. -/
structure ConsoleLine where
  channel : ConsoleChannel
  text : String
  deriving DecidableEq, Repr

/-- A file in the log directory: name (relative to `config.logDir`, which
every operation joins onto), content, and modification time. -/
structure FsFile where
  name : String
  content : String
  mtime : Nat
  deriving DecidableEq, Repr

/-- The log directory: the list of its files. -/
abbrev FileSys := List FsFile

/-- Model of `fs.existsSync` inside the log directory. -/
def existsSync (fs : FileSys) (n : String) : Bool :=
  fs.any (fun f => f.name = n)

/-- Model of `fs.statSync(...).size` (0 for a missing file; `statSync`
throws there, but every call site guards on existence). -/
def statSize (fs : FileSys) (n : String) : Nat :=
  ((fs.find? (fun f => f.name = n)).map (fun f => f.content.length)).getD 0

/-- Model of `fs.appendFileSync`: append to an existing file (updating its
mtime) or create the file. -/
def appendFileSync (fs : FileSys) (n : String) (s : String) (now : Nat) :
    FileSys :=
  if existsSync fs n then
    fs.map (fun f => if f.name = n then
      { f with content := f.content ++ s, mtime := now } else f)
  else fs ++ [⟨n, s, now⟩]

/-- Model of `fs.renameSync` (overwrites the destination, keeps mtime). -/
def renameSync (fs : FileSys) (src dst : String) : FileSys :=
  (fs.filter (fun f => f.name ≠ dst)).map
    (fun f => if f.name = src then { f with name := dst } else f)

/-- Model of `fs.unlinkSync`. -/
def unlinkSync (fs : FileSys) (n : String) : FileSys :=
  fs.filter (fun f => f.name ≠ n)

/-- JS `String.prototype.startsWith`. -/
def jsStartsWith (s p : String) : Bool :=
  s.toList.take p.toList.length = p.toList

/-- JS `String.prototype.endsWith`. -/
def jsEndsWith (s p : String) : Bool :=
  s.toList.drop (s.toList.length - p.toList.length) = p.toList

/-- The logger configuration (`LoggerConfig`); `logDir` is left implicit
since every file operation stays inside the one directory. -/
structure LoggerConfig where
  level : LogLevel
  enableConsole : Bool
  enableFileLogging : Bool
  maxFileSize : Nat
  maxFiles : Nat
  batchSize : Nat
  flushInterval : Nat
  deriving DecidableEq, Repr

/-- The logger's mutable state plus its observable effects: the log
directory, the console output, and a ghost counter of the flushes that
passed `flush`'s initial guard.  `fsAvailable` is the server-side `fs`
module import; `isServer` is `typeof window === "undefined"`. -/
structure LoggerState where
  config : LoggerConfig
  currentLogFile : Option String
  logBuffer : List String
  fs : FileSys
  fsAvailable : Bool
  isServer : Bool
  console : List ConsoleLine
  flushCount : Nat
  deriving DecidableEq, Repr

/-- Ambient inputs of one operation: the clock (`now` for mtimes,
`isoStr` for `toISOString()`, `dateStr` for its date part, `tsStr` for the
rotation timestamp with `:` and `.` replaced by `-`), and whether the
`fs.appendFileSync` call performed by a flush succeeds. -/
structure Env where
  now : Nat
  isoStr : String
  dateStr : String
  tsStr : String
  appendOk : Bool
  deriving DecidableEq, Repr

/-- Embedding of `Logger.getLogFileName`. -/
def getLogFileName (env : Env) : String :=
  "app-web-" ++ env.dateStr ++ ".log"

/-- The rotated file name built by `rotateLogsIfNeeded`. -/
def rotatedFileName (env : Env) : String :=
  "app-web-" ++ env.tsStr ++ ".log"

/-- The filter `cleanupOldLogs` applies to directory entries. -/
def isLogFileName (n : String) : Bool :=
  jsStartsWith n "app-web-" && jsEndsWith n ".log"

/-- Embedding of `Logger.cleanupOldLogs`: list the matching files, sort by
mtime descending, delete everything beyond the first `maxFiles`
(deletions succeed in this model). -/
def cleanupOldLogs (st : LoggerState) : LoggerState :=
  if !st.fsAvailable then st
  else
    let logFiles := sortBy (fun a b => decide (b.mtime ≤ a.mtime))
      (st.fs.filter (fun f => isLogFileName f.name))
    if logFiles.length > st.config.maxFiles then
      let filesToDelete := logFiles.drop st.config.maxFiles
      { st with fs :=
          st.fs.filter (fun f => !(filesToDelete.any (fun g => g.name = f.name))) }
    else st

/-- Embedding of `Logger.rotateLogsIfNeeded`: if today's file exists and is
at least `maxFileSize`, rename it to the timestamp name; then run cleanup;
then point `currentLogFile` at today's name (without creating the file). -/
def rotateLogsIfNeeded (env : Env) (st : LoggerState) : LoggerState :=
  if !st.config.enableFileLogging || !st.fsAvailable then st
  else
    let logFile := getLogFileName env
    let st1 :=
      if existsSync st.fs logFile then
        if statSize st.fs logFile ≥ st.config.maxFileSize then
          { st with fs := renameSync st.fs logFile (rotatedFileName env) }
        else st
      else st
    let st2 := cleanupOldLogs st1
    { st2 with currentLogFile := some logFile }

/-- The console line `flush`'s catch block prints. -/
def flushErrorLine : ConsoleLine :=
  ⟨.errorCh, "Failed to flush logs:"⟩

/-- Embedding of `Logger.flush`.  The guard returns when the buffer is
empty, no current file is set, or the `fs` module is unavailable.
Otherwise the buffered lines are joined and appended; if the append throws
(`env.appendOk = false`) the catch block reports to the console and leaves
the buffer and the directory untouched; on success the buffer is cleared
and an over-sized file triggers rotation. -/
def flush (env : Env) (st : LoggerState) : LoggerState :=
  if st.logBuffer.length = 0 ∨ st.currentLogFile = none ∨
      st.fsAvailable = false then st
  else
    match st.currentLogFile with
    | none => st
    | some cur =>
        if !env.appendOk then
          { st with console := st.console ++ [flushErrorLine],
                    flushCount := st.flushCount + 1 }
        else
          let logs := String.join st.logBuffer
          let fs1 := appendFileSync st.fs cur logs env.now
          let st1 := { st with fs := fs1, logBuffer := [],
                               flushCount := st.flushCount + 1 }
          if statSize fs1 cur ≥ st.config.maxFileSize then
            rotateLogsIfNeeded env st1
          else st1

/-- Embedding of `Logger.formatMessage` (the `context ? ... : ""` ternary
uses JS truthiness, so an empty context string also yields no bracket). -/
def formatMessage (entry : LogEntry) : String :=
  let levelStr := padEnd entry.level.levelName 5
  let contextStr :=
    match entry.context with
    | some c => if c = "" then "" else "[" ++ c ++ "]"
    | none => ""
  "[" ++ entry.timestamp ++ "] " ++ levelStr ++ " " ++ contextStr ++ " " ++
    entry.message

/-- The full buffered line `writeToFile` builds: formatted message, then
the optional Data block, then the optional Stack block, then a newline
(the `if (entry.data)` and `if (entry.stack)` checks use JS truthiness). -/
def fullMessageOf (entry : LogEntry) : String :=
  let logMessage := formatMessage entry
  let withData :=
    if entry.dataTruthy then
      logMessage ++ "\n  Data: " ++ entry.dataJson
    else logMessage
  let withStack :=
    match entry.stack with
    | some s => if s = "" then withData else withData ++ "\n  Stack: " ++ s
    | none => withData
  withStack ++ "\n"

/-- Embedding of `Logger.writeToFile`: guard on file logging and a current
file, push the full message onto the buffer, flush when the buffer has
reached `batchSize`. -/
def writeToFile (env : Env) (st : LoggerState) (entry : LogEntry) :
    LoggerState :=
  if st.config.enableFileLogging = false ∨ st.currentLogFile = none then st
  else
    let st1 := { st with logBuffer := st.logBuffer ++ [fullMessageOf entry] }
    if st1.logBuffer.length ≥ st1.config.batchSize then flush env st1
    else st1

/-- The `LogEntry` that `log` constructs from its arguments: an `Error`
datum is decomposed into stack and a `{name, message, stack\x7d` data object
(always truthy); any other datum keeps its own truthiness and rendering. -/
def mkEntry (env : Env) (level : LogLevel) (message : String)
    (context : Option String) (data : JsData) : LogEntry :=
  match data with
  | .errorVal _ _ stk js =>
      { level := level, message := message, timestamp := env.isoStr,
        context := context, dataTruthy := true, dataJson := js, stack := stk }
  | .plainVal t js =>
      { level := level, message := message, timestamp := env.isoStr,
        context := context, dataTruthy := t, dataJson := js, stack := none }
  | .undefinedVal =>
      { level := level, message := message, timestamp := env.isoStr,
        context := context, dataTruthy := false, dataJson := "",
        stack := none }

/-- Embedding of `Logger.log`: drop the call entirely when the level is
numerically above the configured minimum; otherwise build the entry, write
the formatted line to the console channel matching the level (when console
output is enabled), and on the server side hand the entry to
`writeToFile`. -/
def log (env : Env) (st : LoggerState) (level : LogLevel) (message : String)
    (context : Option String) (data : JsData) : LoggerState :=
  if level.toNat > st.config.level.toNat then st
  else
    let entry := mkEntry env level message context data
    let formattedMessage := formatMessage entry
    let consoleOut : List ConsoleLine :=
      if st.config.enableConsole then
        match level with
        | .ERROR => [⟨.errorCh, formattedMessage⟩]
        | .WARN => [⟨.warnCh, formattedMessage⟩]
        | .INFO => [⟨.infoCh, formattedMessage⟩]
        | .DEBUG => [⟨.logCh, formattedMessage⟩]
      else []
    let st1 := { st with console := st.console ++ consoleOut }
    if st1.isServer then writeToFile env st1 entry else st1

/-- Public method `Logger.error`. -/
def errorM (env : Env) (st : LoggerState) (message : String) (err : JsData)
    (context : Option String) : LoggerState :=
  log env st .ERROR message context err

/-- Public method `Logger.warn`. -/
def warnM (env : Env) (st : LoggerState) (message : String) (data : JsData)
    (context : Option String) : LoggerState :=
  log env st .WARN message context data

/-- Public method `Logger.info`. -/
def infoM (env : Env) (st : LoggerState) (message : String) (data : JsData)
    (context : Option String) : LoggerState :=
  log env st .INFO message context data

/-- Public method `Logger.debug`. -/
def debugM (env : Env) (st : LoggerState) (message : String) (data : JsData)
    (context : Option String) : LoggerState :=
  log env st .DEBUG message context data

/-- Folding a sequence of buffered writes (no timer tick between them). -/
def writeAll (env : Env) (st : LoggerState) (entries : List LogEntry) :
    LoggerState :=
  entries.foldl (writeToFile env) st

end Logger

/-! Concrete fixtures used by witnesses and counterexamples. -/

/-- A concrete service with the constructor defaults. -/
def exSvc : UserService := ⟨UserRole.USER, UserStatus.PENDING_VERIFICATION⟩

/-- A concrete stored user. -/
def exUser : IUser :=
  ⟨"u1", "alice@mail.com", some "Alice", none, none, UserRole.USER,
   UserStatus.ACTIVE, true, 10, "secret-hash", some "rt-1"⟩

/-- Another concrete stored user (a SUPER_ADMIN). -/
def exAdmin : IUser :=
  ⟨"u2", "root@mail.com", none, none, none, UserRole.SUPER_ADMIN,
   UserStatus.ACTIVE, true, 11, "admin-hash", none⟩

/-- A concrete row constructor standing for the database side of
`createUser`. -/
def exFreshRow (d : ICreateUserData) : IUser :=
  ⟨"u9", d.email, d.firstName, d.lastName, none,
   d.role.getD UserRole.USER, d.status.getD UserStatus.PENDING_VERIFICATION,
   false, 99, d.password, none⟩

/-- A create request whose email is malformed and also duplicates
`exUser`'s email prefix pattern. -/
def exBadCreate : ICreateUserData :=
  ⟨"alice-at-mail", "pw", none, none, none, none⟩

/-- A create request duplicating `exUser`'s email exactly. -/
def exDupCreate : ICreateUserData :=
  ⟨"alice@mail.com", "pw", none, none, none, none⟩

/-- A concrete update payload. -/
def exUpdate : IUpdateUser := ⟨none, some "Alicia", none, none, none⟩

/-- A concrete clock/environment whose append succeeds. -/
def exEnv : Logger.Env :=
  ⟨5, "2024-01-01T00:00:00.000Z", "2024-01-01", "2024-01-01T00-00-00-000Z",
   true⟩

/-- The same environment with a failing append. -/
def exEnvFail : Logger.Env := { exEnv with appendOk := false }

/-- A later tick of the clock with a succeeding append. -/
def exEnv2 : Logger.Env := { exEnv with now := 6 }

/-- A configuration with a 4-byte size limit and batch size 1. -/
def exCfg : Logger.LoggerConfig := ⟨.DEBUG, true, true, 4, 5, 1, 5000⟩

/-- The current-day file name under `exEnv`. -/
def exDay : String := Logger.getLogFileName exEnv

/-- A state whose current day-named file is already over the size limit,
with an empty buffer. -/
def exStFull : Logger.LoggerState :=
  ⟨exCfg, some exDay, [], [⟨exDay, "AAAA", 0⟩], true, true, [], 0⟩

/-- A state with one buffered line and a roomy size limit. -/
def exStBuf : Logger.LoggerState :=
  ⟨{ exCfg with maxFileSize := 1000, batchSize := 100 }, some exDay,
   ["boom\n"], [⟨exDay, "AAAA", 0⟩], true, true, [], 0⟩

/-- A state whose configured minimum level is ERROR. -/
def exStErr : Logger.LoggerState :=
  ⟨{ exCfg with level := .ERROR }, some exDay, [], [], true, true, [], 0⟩

/-- A concrete log entry. -/
def exEntry : Logger.LogEntry := ⟨.INFO, "m1", "T", none, false, "", none⟩

/-- A second concrete log entry. -/
def exEntry2 : Logger.LogEntry := ⟨.WARN, "m2", "T", none, false, "", none⟩

/-- A state for the batch-flush witness: batch size 2, large size limit. -/
def exStBatch : Logger.LoggerState :=
  ⟨{ exCfg with maxFileSize := 1000, batchSize := 2 }, some exDay, [], [],
   true, true, [], 0⟩

/-- A directory with three matching log files of distinct mtimes and one
unrelated file, for the cleanup witness. -/
def exStClean : Logger.LoggerState :=
  ⟨{ exCfg with maxFiles := 1 }, none, [],
   [⟨"app-web-2024-01-01.log", "a", 3⟩,
    ⟨"app-web-2023-12-31.log", "b", 1⟩,
    ⟨"notes.txt", "c", 9⟩,
    ⟨"app-web-2024-01-02.log", "d", 7⟩],
   true, true, [], 0⟩

/-! Theorems for the UserService claims. -/

/-- C6: the UserService authorization decision follows the precedence
table with first match winning, for every requester and target and
regardless of the target's role: a requester equal to the target may
modify but not delete; otherwise a SUPER_ADMIN requester may modify and
delete; otherwise a MANAGER requester may modify but not delete; any other
requester may neither modify nor delete. -/
theorem c6_authorization_matches_table (target : IUser)
    (requestingUserId : Option String)
    (requestingUserRole : Option UserRole) :
    UserService.canModifyUser target.id requestingUserId requestingUserRole =
      specTableModify (requestingUserId = some target.id) requestingUserRole ∧
    UserService.canDeleteUser target requestingUserId requestingUserRole =
      specTableDelete (requestingUserId = some target.id) requestingUserRole := by
  unfold UserService.canModifyUser UserService.canDeleteUser specTableModify
    specTableDelete
  by_cases h : requestingUserId = some target.id <;>
    rcases requestingUserRole with _ | r <;>
      first
        | (cases r <;> simp [h])
        | simp [h]

/-- C9: updateUser and deleteUser check target existence before
authorization: when no stored user carries the target id, both operations
fail with the not-found error for every requester identity and role. -/
theorem c9_not_found_checked_first (svc : UserService) (db : List IUser)
    (id : String) (data : IUpdateUser) (requestingUserId : Option String)
    (requestingUserRole : Option UserRole)
    (h : ∀ u ∈ db, u.id ≠ id) :
    UserService.updateUser svc db id data requestingUserId requestingUserRole =
      .error .userNotFound ∧
    UserService.deleteUser db id requestingUserId requestingUserRole =
      .error .userNotFound := by
  have hfind : UserService.getUserByIdDS db id = none := by
    unfold UserService.getUserByIdDS
    exact List.find?_eq_none.mpr (fun u hu => by simpa using h u hu)
  constructor <;> simp [UserService.updateUser, UserService.deleteUser, hfind]

/-- Witness for C9 at a concrete input: the database contains only users
with other ids, and an unauthorized requester still receives the
not-found error. -/
theorem c9_witness :
    UserService.updateUser exSvc [exUser] "nope" exUpdate (some "u1")
        (some UserRole.USER) = .error .userNotFound ∧
    UserService.deleteUser [exUser] "nope" (some "u1") (some UserRole.USER) =
      .error .userNotFound :=
  c9_not_found_checked_first exSvc [exUser] "nope" exUpdate (some "u1")
    (some UserRole.USER) (by decide)

/-- C7: createUser rejects a malformed email with the format error even
when a duplicate also exists (so the format check runs before the
duplicate check); it fails whenever some stored record carries exactly the
same email (case-sensitive string equality in the data source); and with a
well-formed duplicate email the failure is the already-exists error.  A
failing run returns only the error, so no user row is produced. -/
theorem c7_createUser_rejections (svc : UserService) (db : List IUser)
    (data : ICreateUserData) (freshRow : ICreateUserData → IUser) :
    (isValidEmail data.email = false →
      UserService.createUser svc db data freshRow = .error .invalidEmailFormat) ∧
    ((∃ u ∈ db, u.email = data.email) →
      ∃ e, UserService.createUser svc db data freshRow = .error e) ∧
    (isValidEmail data.email = true → (∃ u ∈ db, u.email = data.email) →
      UserService.createUser svc db data freshRow = .error .userAlreadyExists) := by
  have hdup : (∃ u ∈ db, u.email = data.email) →
      ∃ v, UserService.getUserByEmailDS db data.email = some v := by
    intro hex
    have : (UserService.getUserByEmailDS db data.email).isSome = true := by
      unfold UserService.getUserByEmailDS
      exact List.find?_isSome.mpr (by simpa using hex)
    exact Option.isSome_iff_exists.mp this
  refine ⟨fun hbad => ?_, fun hex => ?_, fun hok hex => ?_⟩
  · simp [UserService.createUser, hbad]
  · rcases hdup hex with ⟨v, hv⟩
    by_cases hval : isValidEmail data.email
    · exact ⟨.userAlreadyExists, by simp [UserService.createUser, hval, hv]⟩
    · exact ⟨.invalidEmailFormat,
        by simp [UserService.createUser, Bool.eq_false_iff.mpr hval]⟩
  · rcases hdup hex with ⟨v, hv⟩
    simp [UserService.createUser, hok, hv]

/-- Witness for C7 at concrete inputs: a malformed email is rejected with
the format error, and an exact duplicate of a stored email is rejected
with the already-exists error. -/
theorem c7_witness :
    UserService.createUser exSvc [exUser] exBadCreate exFreshRow =
      .error .invalidEmailFormat ∧
    UserService.createUser exSvc [exUser] exDupCreate exFreshRow =
      .error .userAlreadyExists :=
  ⟨(c7_createUser_rejections exSvc [exUser] exBadCreate exFreshRow).1
      (by decide),
   (c7_createUser_rejections exSvc [exUser] exDupCreate exFreshRow).2.2
      (by decide) ⟨exUser, by decide⟩⟩

/-- C8: every user value returned successfully by createUser, getUserById,
updateUser and getUsersByRole is the `toPublicUser` projection of a stored
row; that projection copies exactly the nine public fields, and its result
is unchanged under any alteration of the sensitive `password` and
`refreshToken` fields, so sensitive data never appears in a returned
value. -/
theorem c8_returned_values_are_public_projections :
    (∀ (u : IUser) (p : String) (rt : Option String),
      UserService.toPublicUser { u with password := p, refreshToken := rt } =
        UserService.toPublicUser u) ∧
    (∀ u : IUser,
      (UserService.toPublicUser u).id = u.id ∧
      (UserService.toPublicUser u).email = u.email ∧
      (UserService.toPublicUser u).firstName = u.firstName ∧
      (UserService.toPublicUser u).lastName = u.lastName ∧
      (UserService.toPublicUser u).profilePhoto = u.profilePhoto ∧
      (UserService.toPublicUser u).role = u.role ∧
      (UserService.toPublicUser u).status = u.status ∧
      (UserService.toPublicUser u).emailVerified = u.emailVerified ∧
      (UserService.toPublicUser u).createdAt = u.createdAt) ∧
    (∀ (svc : UserService) (db : List IUser) (data : ICreateUserData)
        (freshRow : ICreateUserData → IUser) (db' : List IUser)
        (pu : IUserPublic),
      UserService.createUser svc db data freshRow = .ok (db', pu) →
      ∃ u, pu = UserService.toPublicUser u) ∧
    (∀ (db : List IUser) (id : String) (pu : IUserPublic),
      UserService.getUserById db id = some pu →
      ∃ u, pu = UserService.toPublicUser u) ∧
    (∀ (svc : UserService) (db : List IUser) (id : String) (data : IUpdateUser)
        (rid : Option String) (rrole : Option UserRole) (db' : List IUser)
        (pu : IUserPublic),
      UserService.updateUser svc db id data rid rrole = .ok (db', pu) →
      ∃ u, pu = UserService.toPublicUser u) ∧
    (∀ (db : List IUser) (role : UserRole) (rrole : Option UserRole)
        (pus : List IUserPublic),
      UserService.getUsersByRole db role rrole = .ok pus →
      ∀ pu ∈ pus, ∃ u, pu = UserService.toPublicUser u) := by
  refine ⟨fun u p rt => rfl,
          fun u => ⟨rfl, rfl, rfl, rfl, rfl, rfl, rfl, rfl, rfl⟩,
          ?_, ?_, ?_, ?_⟩
  · intro svc db data freshRow db' pu h
    by_cases hval : isValidEmail data.email
    · rcases hfind : UserService.getUserByEmailDS db data.email with _ | v
      · simp [UserService.createUser, hval, hfind] at h
        exact ⟨_, h.2.symm⟩
      · simp [UserService.createUser, hval, hfind] at h
    · simp [UserService.createUser, Bool.eq_false_iff.mpr hval] at h
  · intro db id pu h
    unfold UserService.getUserById at h
    rcases hfind : UserService.getUserByIdDS db id with _ | v <;>
      simp [hfind] at h
    exact ⟨v, h.symm⟩
  · intro svc db id data rid rrole db' pu h
    unfold UserService.updateUser at h
    rcases hfind : UserService.getUserByIdDS db id with _ | ex
    · simp [hfind] at h
    · simp only [hfind] at h
      split at h
      · simp at h
      · split at h
        · simp at h
        · split at h
          · simp at h
          · simp at h
            exact ⟨_, h.2.symm⟩
  · intro db role rrole pus h
    unfold UserService.getUsersByRole at h
    split at h
    · simp at h
    · simp only [Except.ok.injEq] at h
      subst h
      intro pu hpu
      rcases List.mem_map.mp hpu with ⟨u, _, hu⟩
      exact ⟨u, hu.symm⟩

/-- Witness for C8 at a concrete input: the value returned for a stored
user is a public projection. -/
theorem c8_witness :
    ∃ u, UserService.toPublicUser exUser = UserService.toPublicUser u :=
  c8_returned_values_are_public_projections.2.2.2.1 [exUser] "u1"
    (UserService.toPublicUser exUser) (by decide)

/-! Theorems for the Logger claims. -/

/-- C3: a call whose level is numerically greater than the configured
minimum is dropped entirely: the state (buffer, files, console) is
returned unchanged, for `log` and for each public method at its level. -/
theorem c3_filtered_call_has_no_effect (env : Logger.Env)
    (st : Logger.LoggerState) (level : Logger.LogLevel) (message : String)
    (context : Option String) (data : Logger.JsData)
    (h : st.config.level.toNat < level.toNat) :
    Logger.log env st level message context data = st ∧
    (level = .ERROR → Logger.errorM env st message data context = st) ∧
    (level = .WARN → Logger.warnM env st message data context = st) ∧
    (level = .INFO → Logger.infoM env st message data context = st) ∧
    (level = .DEBUG → Logger.debugM env st message data context = st) := by
  have hlog : Logger.log env st level message context data = st := by
    unfold Logger.log
    simp [h]
  refine ⟨hlog, ?_, ?_, ?_, ?_⟩
  · intro he; subst he; simpa [Logger.errorM] using hlog
  · intro hw; subst hw; simpa [Logger.warnM] using hlog
  · intro hi; subst hi; simpa [Logger.infoM] using hlog
  · intro hd; subst hd; simpa [Logger.debugM] using hlog

/-- Witness for C3 at a concrete input: with the minimum level ERROR, a
debug call leaves the state untouched. -/
theorem c3_witness :
    Logger.log exEnv exStErr .DEBUG "m" none .undefinedVal = exStErr ∧
    Logger.debugM exEnv exStErr "m" .undefinedVal none = exStErr :=
  ⟨(c3_filtered_call_has_no_effect exEnv exStErr .DEBUG "m" none .undefinedVal
      (by decide)).1,
   (c3_filtered_call_has_no_effect exEnv exStErr .DEBUG "m" none .undefinedVal
      (by decide)).2.2.2.2 rfl⟩

/-- C10: with an empty buffer, or no current log file, or the filesystem
module unavailable, flush returns the state unchanged: no file is touched,
the buffer stays as it is, and neither rotation nor cleanup runs. -/
theorem c10_flush_noop (env : Logger.Env) (st : Logger.LoggerState)
    (h : st.logBuffer = [] ∨ st.currentLogFile = none ∨
      st.fsAvailable = false) :
    Logger.flush env st = st := by
  unfold Logger.flush
  rcases h with h | h | h <;> simp [h]

/-- Witness for C10 at a concrete input: flushing an empty buffer is a
no-op. -/
theorem c10_witness : Logger.flush exEnv exStFull = exStFull :=
  c10_flush_noop exEnv exStFull (Or.inl rfl)

/-- Searching by name commutes with the content-append map `appendFileSync`
performs on an existing file (the update keeps every name). -/
theorem find?_name_append_map (n s : String) (now : Nat)
    (fs : List Logger.FsFile) :
    List.find? (fun f => f.name = n)
      (fs.map (fun f => if f.name = n
        then { f with content := f.content ++ s, mtime := now } else f)) =
    (List.find? (fun f => f.name = n) fs).map
      (fun f => { f with content := f.content ++ s, mtime := now }) := by
  induction fs with
  | nil => rfl
  | cons f rest ih =>
      by_cases hf : f.name = n
      · simp [List.find?, hf]
      · simp [List.find?, hf, ih]

/-- Appending adds exactly the appended text to the target file's recorded
size, whether the file already existed or was created. -/
theorem statSize_appendFileSync (n s : String) (now : Nat)
    (fs : Logger.FileSys) :
    Logger.statSize (Logger.appendFileSync fs n s now) n =
      Logger.statSize fs n + s.length := by
  unfold Logger.appendFileSync
  by_cases he : Logger.existsSync fs n
  · rw [if_pos he]
    unfold Logger.statSize
    rw [find?_name_append_map]
    have hsome : (List.find? (fun f => f.name = n) fs).isSome = true := by
      apply List.find?_isSome.mpr
      unfold Logger.existsSync at he
      simpa using List.any_eq_true.mp he
    rcases Option.isSome_iff_exists.mp hsome with ⟨g, hg⟩
    rw [hg]
    simp [String.length_append]
  · rw [if_neg he]
    unfold Logger.statSize
    have hnone : List.find? (fun f => f.name = n) fs = none := by
      apply List.find?_eq_none.mpr
      intro x hx
      unfold Logger.existsSync at he
      simpa using fun hxn => he (List.any_eq_true.mpr ⟨x, hx, by simpa using hxn⟩)
    rw [List.find?_append, hnone]
    simp [List.find?]

/-- Counterexample to C1 as stated: at a concrete state, after a flush
whose append fails, the in-memory buffer still holds the line that was
taken for that flush — it is not empty. -/
theorem c1_counterexample :
    (Logger.flush exEnvFail exStBuf).logBuffer ≠ [] := by decide

/-- C1 (amended): when the file append performed during a flush fails, the
error is caught and reported to the console and is never raised to the
caller, but the buffered lines taken for that flush are NOT dropped: the
buffer and the directory are left exactly as they were, and the next
successful flush appends exactly those retained lines to the current
file (they are retried, not lost). -/
theorem c1_amended_failed_flush_retains_buffer (env env2 : Logger.Env)
    (st : Logger.LoggerState) (cur : String)
    (hcur : st.currentLogFile = some cur)
    (hbuf : st.logBuffer ≠ [])
    (hav : st.fsAvailable = true)
    (hfail : env.appendOk = false)
    (hok : env2.appendOk = true)
    (hsize : Logger.statSize st.fs cur + (String.join st.logBuffer).length <
      st.config.maxFileSize) :
    (Logger.flush env st).logBuffer = st.logBuffer ∧
    (Logger.flush env st).fs = st.fs ∧
    (Logger.flush env st).console = st.console ++ [Logger.flushErrorLine] ∧
    (Logger.flush env2 (Logger.flush env st)).logBuffer = [] ∧
    (Logger.flush env2 (Logger.flush env st)).fs =
      Logger.appendFileSync st.fs cur (String.join st.logBuffer) env2.now := by
  have hguard : ¬(st.logBuffer.length = 0 ∨ st.currentLogFile = none ∨
      st.fsAvailable = false) := by
    push_neg
    refine ⟨by simpa using hbuf, by simp [hcur], by simp [hav]⟩
  have h1 : Logger.flush env st =
      { st with console := st.console ++ [Logger.flushErrorLine],
                flushCount := st.flushCount + 1 } := by
    unfold Logger.flush
    rw [if_neg hguard, hcur]
    simp [hfail]
  rw [h1]
  refine ⟨rfl, rfl, rfl, ?_⟩
  unfold Logger.flush
  rw [if_neg (by simpa using hguard), hcur]
  simp only [hok, Bool.not_true, Bool.false_eq_true, if_false]
  rw [statSize_appendFileSync]
  rw [if_neg (by omega)]
  exact ⟨rfl, rfl⟩

/-- Witness for C1's amended theorem at a concrete input. -/
theorem c1_witness :
    (Logger.flush exEnvFail exStBuf).logBuffer = exStBuf.logBuffer ∧
    (Logger.flush exEnvFail exStBuf).fs = exStBuf.fs ∧
    (Logger.flush exEnvFail exStBuf).console =
      exStBuf.console ++ [Logger.flushErrorLine] ∧
    (Logger.flush exEnv2 (Logger.flush exEnvFail exStBuf)).logBuffer = [] ∧
    (Logger.flush exEnv2 (Logger.flush exEnvFail exStBuf)).fs =
      Logger.appendFileSync exStBuf.fs exDay
        (String.join exStBuf.logBuffer) exEnv2.now :=
  c1_amended_failed_flush_retains_buffer exEnvFail exEnv2 exStBuf exDay rfl
    (by decide) rfl rfl rfl (by decide)

/-- Joining a single buffered line is that line. -/
theorem join_singleton (s : String) : String.join [s] = s := by
  cases s
  rfl

/-- A string starts with its own first summand. -/
theorem jsStartsWith_append (p s : String) :
    Logger.jsStartsWith (p ++ s) p = true := by
  unfold Logger.jsStartsWith
  simp [String.toList, String.data_append, List.take_left]

/-- A string ends with its own last summand. -/
theorem jsEndsWith_append (s p : String) :
    Logger.jsEndsWith (s ++ p) p = true := by
  unfold Logger.jsEndsWith
  simp only [String.toList, String.data_append, List.length_append,
    Nat.add_sub_cancel, decide_eq_true_eq]
  exact List.drop_left s.data p.data

/-- Rotated file names match the cleanup filter. -/
theorem isLogFileName_rotated (env : Logger.Env) :
    Logger.isLogFileName (Logger.rotatedFileName env) = true := by
  unfold Logger.isLogFileName Logger.rotatedFileName
  rw [Bool.and_eq_true]
  constructor
  · rw [String.append_assoc]
    exact jsStartsWith_append "app-web-" (env.tsStr ++ ".log")
  · exact jsEndsWith_append ("app-web-" ++ env.tsStr) ".log"

/-- Counterexample to C2 as stated: at a concrete state whose day-named
current file is already at the size limit, one more write leaves the new
content inside the rotated file (old content followed by the new line) and
NO file exists under the day-based current name — the claimed "new current
file with only the new content" does not exist. -/
theorem c2_counterexample :
    (Logger.writeToFile exEnv exStFull exEntry).fs =
      [⟨Logger.rotatedFileName exEnv, "AAAA[T] INFO   m1\n", 5⟩] ∧
    Logger.existsSync (Logger.writeToFile exEnv exStFull exEntry).fs
      (Logger.getLogFileName exEnv) = false := by
  constructor <;> decide

/-- C2 (amended): with the current day-named file at size at least
`maxFileSize`, an empty buffer and `batchSize = 1`, one more write (buffer
append followed by its flush) appends the new line to the oversized file
and then rotates it: afterwards the old file exists under the rotated,
timestamp-suffixed name with its old content followed by the newly written
line, the day-based name is again the current write target, but no file
exists under the day-based name until a later flush creates it. -/
theorem c2_amended_rotation_after_append (env : Logger.Env)
    (entry : Logger.LogEntry) (lvl : Logger.LogLevel) (ec : Bool)
    (maxFS maxF fi : Nat) (c : String) (t : Nat) (isSrv : Bool)
    (con : List Logger.ConsoleLine) (k : Nat)
    (hsize : maxFS ≤ c.length)
    (hok : env.appendOk = true)
    (hne : Logger.rotatedFileName env ≠ Logger.getLogFileName env)
    (hmax : 1 ≤ maxF) :
    (Logger.writeToFile env
      ⟨⟨lvl, ec, true, maxFS, maxF, 1, fi⟩, some (Logger.getLogFileName env),
       [], [⟨Logger.getLogFileName env, c, t⟩], true, isSrv, con, k⟩
      entry).fs =
      [⟨Logger.rotatedFileName env, c ++ Logger.fullMessageOf entry,
        env.now⟩] ∧
    (Logger.writeToFile env
      ⟨⟨lvl, ec, true, maxFS, maxF, 1, fi⟩, some (Logger.getLogFileName env),
       [], [⟨Logger.getLogFileName env, c, t⟩], true, isSrv, con, k⟩
      entry).currentLogFile = some (Logger.getLogFileName env) ∧
    Logger.existsSync
      (Logger.writeToFile env
        ⟨⟨lvl, ec, true, maxFS, maxF, 1, fi⟩,
         some (Logger.getLogFileName env), [],
         [⟨Logger.getLogFileName env, c, t⟩], true, isSrv, con, k⟩
        entry).fs (Logger.getLogFileName env) = false := by
  have hge : maxFS ≤ c.length + (Logger.fullMessageOf entry).length := by
    omega
  have hmax' : ¬(1 > maxF) := by omega
  have hne2 : Logger.getLogFileName env ≠ Logger.rotatedFileName env :=
    fun h => hne h.symm
  refine ⟨?_, ?_, ?_⟩ <;>
    simp [Logger.writeToFile, Logger.flush, Logger.rotateLogsIfNeeded,
      Logger.cleanupOldLogs, Logger.appendFileSync, Logger.renameSync,
      Logger.existsSync, Logger.statSize, List.find?, join_singleton,
      isLogFileName_rotated, sortBy, insertBy, hok, ge_iff_le, hge, hmax',
      hne, hne2]

/-- Witness for C2's amended theorem at a concrete input. -/
theorem c2_witness :
    (Logger.writeToFile exEnv
      ⟨⟨.DEBUG, true, true, 4, 5, 1, 5000⟩, some (Logger.getLogFileName exEnv),
       [], [⟨Logger.getLogFileName exEnv, "AAAA", 0⟩], true, true, [], 0⟩
      exEntry).fs =
      [⟨Logger.rotatedFileName exEnv, "AAAA" ++ Logger.fullMessageOf exEntry,
        exEnv.now⟩] ∧
    (Logger.writeToFile exEnv
      ⟨⟨.DEBUG, true, true, 4, 5, 1, 5000⟩, some (Logger.getLogFileName exEnv),
       [], [⟨Logger.getLogFileName exEnv, "AAAA", 0⟩], true, true, [], 0⟩
      exEntry).currentLogFile = some (Logger.getLogFileName exEnv) ∧
    Logger.existsSync
      (Logger.writeToFile exEnv
        ⟨⟨.DEBUG, true, true, 4, 5, 1, 5000⟩,
         some (Logger.getLogFileName exEnv), [],
         [⟨Logger.getLogFileName exEnv, "AAAA", 0⟩], true, true, [], 0⟩
        exEntry).fs (Logger.getLogFileName exEnv) = false :=
  c2_amended_rotation_after_append exEnv exEntry .DEBUG true 4 5 5000 "AAAA" 0
    true [] 0 (by decide) rfl (by decide) (by decide)

/-- Cleanup only touches the directory: buffer and flush counter are kept. -/
theorem cleanupOldLogs_keeps_buffer (st : Logger.LoggerState) :
    (Logger.cleanupOldLogs st).logBuffer = st.logBuffer ∧
    (Logger.cleanupOldLogs st).flushCount = st.flushCount := by
  unfold Logger.cleanupOldLogs
  dsimp only
  repeat' split
  all_goals exact ⟨rfl, rfl⟩

/-- Rotation only touches the directory and the current-file pointer:
buffer and flush counter are kept. -/
theorem rotateLogsIfNeeded_keeps_buffer (env : Logger.Env)
    (st : Logger.LoggerState) :
    (Logger.rotateLogsIfNeeded env st).logBuffer = st.logBuffer ∧
    (Logger.rotateLogsIfNeeded env st).flushCount = st.flushCount := by
  unfold Logger.rotateLogsIfNeeded Logger.cleanupOldLogs
  dsimp only
  repeat' split
  all_goals exact ⟨rfl, rfl⟩

/-- Buffered writes strictly below the batch size only append to the
buffer: no flush fires and nothing else in the state changes. -/
theorem writeAll_below_batch (env : Logger.Env)
    (entries : List Logger.LogEntry) :
    ∀ (st : Logger.LoggerState) (f : String),
      st.config.enableFileLogging = true →
      st.currentLogFile = some f →
      st.logBuffer.length + entries.length < st.config.batchSize →
      Logger.writeAll env st entries =
        { st with logBuffer :=
            st.logBuffer ++ entries.map Logger.fullMessageOf } := by
  induction entries with
  | nil =>
      intro st f h1 h2 h3
      show st = _
      cases st
      simp [Logger.writeAll]
  | cons e rest ih =>
      intro st f h1 h2 h3
      have hlen : ¬((st.logBuffer ++ [Logger.fullMessageOf e]).length ≥
          st.config.batchSize) := by
        rw [List.length_append]
        simp only [List.length_cons, List.length_nil] at h3 ⊢
        omega
      have hw : Logger.writeToFile env st e =
          { st with logBuffer := st.logBuffer ++ [Logger.fullMessageOf e] } := by
        unfold Logger.writeToFile
        rw [if_neg (by simp [h1, h2])]
        simp only []
        rw [if_neg hlen]
      show Logger.writeAll env (Logger.writeToFile env st e) rest = _
      rw [hw]
      rw [ih { st with logBuffer := st.logBuffer ++ [Logger.fullMessageOf e] }
        f h1 h2 (by simp at h3 ⊢; omega)]
      simp

/-- C4: starting from an empty buffer with file logging active, appending
exactly `batchSize` entries with no timer tick triggers exactly one flush
(at the final append) and leaves the buffer empty; after every prefix of
those appends the buffer length never exceeds `batchSize`. -/
theorem c4_batch_exactly_one_flush (env : Logger.Env)
    (st : Logger.LoggerState) (entries : List Logger.LogEntry) (f : String)
    (hefl : st.config.enableFileLogging = true)
    (hcur : st.currentLogFile = some f)
    (hav : st.fsAvailable = true)
    (hok : env.appendOk = true)
    (hbuf : st.logBuffer = [])
    (hcnt : st.flushCount = 0)
    (hlen : entries.length = st.config.batchSize)
    (hpos : 0 < st.config.batchSize) :
    (Logger.writeAll env st entries).flushCount = 1 ∧
    (Logger.writeAll env st entries).logBuffer = [] ∧
    (∀ pre suf, entries = pre ++ suf →
      (Logger.writeAll env st pre).logBuffer.length ≤
        st.config.batchSize) := by
  rcases List.eq_nil_or_concat entries with hnil | ⟨L, b, hLb⟩
  · rw [hnil] at hlen
    simp at hlen
    omega
  have hL : L.length + 1 = st.config.batchSize := by
    rw [hLb] at hlen
    simpa [List.concat_eq_append] using hlen
  have hmid : Logger.writeAll env st L =
      { st with logBuffer := [] ++ L.map Logger.fullMessageOf } := by
    rw [← hbuf]
    exact writeAll_below_batch env L st f hefl hcur (by rw [hbuf]; simp; omega)
  have hsplitAll : Logger.writeAll env st (L ++ [b]) =
      Logger.writeToFile env (Logger.writeAll env st L) b := by
    unfold Logger.writeAll
    rw [List.foldl_append]
    rfl
  have hfullLen : ((L.map Logger.fullMessageOf) ++
      [Logger.fullMessageOf b]).length = st.config.batchSize := by
    simp
    omega
  have hstep : Logger.writeAll env st (L ++ [b]) =
      Logger.flush env
        { st with
          logBuffer := L.map Logger.fullMessageOf ++ [Logger.fullMessageOf b] } := by
    rw [hsplitAll, hmid]
    unfold Logger.writeToFile
    rw [if_neg (by simp [hefl, hcur])]
    simp only [List.nil_append]
    rw [if_pos (by simp only [hfullLen]; exact Nat.le_refl _)]
  have hflush : (Logger.flush env
        { st with
          logBuffer := L.map Logger.fullMessageOf ++ [Logger.fullMessageOf b] }).flushCount =
          st.flushCount + 1 ∧
      (Logger.flush env
        { st with
          logBuffer := L.map Logger.fullMessageOf ++ [Logger.fullMessageOf b] }).logBuffer =
          [] := by
    unfold Logger.flush
    rw [if_neg (by
      simp only [hcur, hav]
      push_neg
      refine ⟨?_, by simp, by simp⟩
      simp only [hfullLen]
      omega)]
    simp only [hcur]
    rw [if_neg (by simp [hok])]
    split
    · constructor
      · rw [(rotateLogsIfNeeded_keeps_buffer _ _).2]
      · rw [(rotateLogsIfNeeded_keeps_buffer _ _).1]
    · exact ⟨rfl, rfl⟩
  have hmain1 : (Logger.writeAll env st entries).flushCount = 1 := by
    rw [hLb, List.concat_eq_append, hstep, hflush.1, hcnt]
  have hmain2 : (Logger.writeAll env st entries).logBuffer = [] := by
    rw [hLb, List.concat_eq_append, hstep, hflush.2]
  refine ⟨hmain1, hmain2, ?_⟩
  intro pre suf hsplit
  by_cases hplt : pre.length < st.config.batchSize
  · rw [writeAll_below_batch env pre st f hefl hcur (by rw [hbuf]; simpa)]
    simp [hbuf]
    omega
  · have hpre : pre.length = st.config.batchSize := by
      have := congrArg List.length hsplit
      rw [hlen] at this
      simp at this
      omega
    have hsuf : suf = [] := by
      have := congrArg List.length hsplit
      rw [hlen] at this
      simp at this
      rcases List.length_eq_zero.mp (by omega : suf.length = 0) with h
      exact h
    have : pre = entries := by rw [hsplit, hsuf, List.append_nil]
    rw [this, hmain2]
    simp

/-- Witness for C4 at a concrete input: batch size 2, two appends, one
flush, empty buffer afterwards. -/
theorem c4_witness :
    (Logger.writeAll exEnv exStBatch [exEntry, exEntry2]).flushCount = 1 ∧
    (Logger.writeAll exEnv exStBatch [exEntry, exEntry2]).logBuffer = [] :=
  ⟨(c4_batch_exactly_one_flush exEnv exStBatch [exEntry, exEntry2] exDay
      rfl rfl rfl rfl rfl rfl rfl (by decide)).1,
   (c4_batch_exactly_one_flush exEnv exStBatch [exEntry, exEntry2] exDay
      rfl rfl rfl rfl rfl rfl rfl (by decide)).2.1⟩

/-- Stable insertion permutes consing. -/
theorem insertBy_perm {α : Type} (le : α → α → Bool) (x : α) (l : List α) :
    List.Perm (insertBy le x l) (x :: l) := by
  induction l with
  | nil => exact List.Perm.refl _
  | cons y ys ih =>
      unfold insertBy
      split
      · exact List.Perm.refl _
      · exact (List.Perm.cons y ih).trans (List.Perm.swap x y ys)

/-- Sorting permutes the list. -/
theorem sortBy_perm {α : Type} (le : α → α → Bool) (l : List α) :
    List.Perm (sortBy le l) l := by
  induction l with
  | nil => exact List.Perm.refl _
  | cons x xs ih =>
      exact (insertBy_perm le x (sortBy le xs)).trans (List.Perm.cons x ih)

/-- Inserting into a sorted list keeps it sorted, for a transitive total
comparator. -/
theorem pairwise_insertBy {α : Type} {le : α → α → Bool}
    (htrans : ∀ a b c, le a b = true → le b c = true → le a c = true)
    (htotal : ∀ a b, le a b = true ∨ le b a = true) (x : α) :
    ∀ l : List α, l.Pairwise (fun a b => le a b = true) →
      (insertBy le x l).Pairwise (fun a b => le a b = true) := by
  intro l
  induction l with
  | nil =>
      intro _
      exact List.Pairwise.cons (by intro z hz; cases hz) List.Pairwise.nil
  | cons y ys ih =>
      intro hp
      rcases List.pairwise_cons.mp hp with ⟨hy, hys⟩
      unfold insertBy
      split
      · next hxy =>
          refine List.Pairwise.cons ?_ hp
          intro z hz
          rcases List.mem_cons.mp hz with rfl | hz'
          · exact hxy
          · exact htrans x y z hxy (hy z hz')
      · next hxy =>
          have hyx : le y x = true := by
            rcases htotal x y with h | h
            · exact absurd h hxy
            · exact h
          refine List.Pairwise.cons ?_ (ih hys)
          intro z hz
          have hz2 := (insertBy_perm le x ys).mem_iff.mp hz
          rcases List.mem_cons.mp hz2 with rfl | hz'
          · exact hyx
          · exact hy z hz'

/-- The sort output is sorted, for a transitive total comparator. -/
theorem pairwise_sortBy {α : Type} {le : α → α → Bool}
    (htrans : ∀ a b c, le a b = true → le b c = true → le a c = true)
    (htotal : ∀ a b, le a b = true ∨ le b a = true) (l : List α) :
    (sortBy le l).Pairwise (fun a b => le a b = true) := by
  induction l with
  | nil => exact List.Pairwise.nil
  | cons x xs ih => exact pairwise_insertBy htrans htotal x _ ih

/-- Core of the retention argument: deleting (by name) everything beyond
the first `N` of the matching files sorted by mtime descending leaves
exactly `N` matching files, keeps only files that were present, and every
deleted matching file is strictly older than every retained matching
file.  Requires distinct names (a real directory) and distinct mtimes. -/
theorem keepNewest_spec (fs del : List Logger.FsFile) (N : Nat)
    (hdel : del = (sortBy (fun a b => decide (b.mtime ≤ a.mtime))
      (fs.filter (fun f => Logger.isLogFileName f.name))).drop N)
    (hnodup : (fs.map Logger.FsFile.name).Nodup)
    (hdist : (fs.filter (fun f => Logger.isLogFileName f.name)).Pairwise
      (fun a b => a.mtime ≠ b.mtime))
    (hM : N < (fs.filter (fun f => Logger.isLogFileName f.name)).length) :
    ((fs.filter (fun f => !(del.any (fun g => g.name = f.name)))).filter
        (fun f => Logger.isLogFileName f.name)).length = N ∧
    (∀ f ∈ fs.filter (fun f => !(del.any (fun g => g.name = f.name))),
      f ∈ fs) ∧
    (∀ g ∈ fs, Logger.isLogFileName g.name = true →
      g ∉ fs.filter (fun f => !(del.any (fun g => g.name = f.name))) →
      ∀ f ∈ fs.filter (fun f => !(del.any (fun g => g.name = f.name))),
        Logger.isLogFileName f.name = true → g.mtime < f.mtime) := by
  subst hdel
  set le : Logger.FsFile → Logger.FsFile → Bool :=
    fun a b => decide (b.mtime ≤ a.mtime) with hle
  set L := fs.filter (fun f => Logger.isLogFileName f.name) with hL
  set S := sortBy le L with hS
  set del := S.drop N with hdelS
  set keep := S.take N with hkeepS
  set pk : Logger.FsFile → Bool :=
    fun f => !(del.any (fun g => g.name = f.name)) with hpk
  have hpermSL : List.Perm S L := sortBy_perm le L
  have htrans : ∀ a b c : Logger.FsFile,
      le a b = true → le b c = true → le a c = true := by
    intro a b c hab hbc
    simp only [hle, decide_eq_true_eq] at hab hbc ⊢
    omega
  have htotal : ∀ a b : Logger.FsFile, le a b = true ∨ le b a = true := by
    intro a b
    simp only [hle, decide_eq_true_eq]
    omega
  have hsorted : S.Pairwise (fun a b => le a b = true) :=
    pairwise_sortBy htrans htotal L
  have hStd : keep ++ del = S := List.take_append_drop N S
  have hnodupL : (L.map Logger.FsFile.name).Nodup :=
    List.Nodup.sublist
      (List.Sublist.map Logger.FsFile.name (List.filter_sublist fs)) hnodup
  have hnodupS : (S.map Logger.FsFile.name).Nodup :=
    ((hpermSL.map Logger.FsFile.name).nodup_iff).mpr hnodupL
  have hdistS : S.Pairwise (fun a b => a.mtime ≠ b.mtime) :=
    (hpermSL.pairwise_iff (fun h => h.symm)).mpr hdist
  have hdelFalse : ∀ g ∈ del, pk g = false := by
    intro g hg
    have hany : del.any (fun h => h.name = g.name) = true :=
      List.any_eq_true.mpr ⟨g, hg, by simp⟩
    simp [hpk, hany]
  have hkeepTrue : ∀ f ∈ keep, pk f = true := by
    intro f hf
    suffices hno : del.any (fun h => h.name = f.name) = false by
      simp [hpk, hno]
    by_contra hcon
    rcases List.any_eq_true.mp (Bool.of_not_eq_false hcon) with ⟨d, hd, hdn⟩
    have hSd : (S.map Logger.FsFile.name).Nodup := hnodupS
    rw [← hStd, List.map_append] at hSd
    have hdisj := (List.nodup_append.mp hSd).2.2
    apply hdisj (List.mem_map_of_mem Logger.FsFile.name hf)
    have hdn' : d.name = f.name := by simpa using hdn
    rw [← hdn']
    exact List.mem_map_of_mem Logger.FsFile.name hd
  have hfilcomm : (fs.filter pk).filter
      (fun f => Logger.isLogFileName f.name) = L.filter pk := by
    rw [hL, List.filter_filter, List.filter_filter]
    exact List.filter_congr (fun x _ => Bool.and_comm _ _)
  have hSfil : S.filter pk = keep := by
    rw [← hStd, List.filter_append]
    rw [List.filter_eq_self.mpr hkeepTrue]
    rw [List.filter_eq_nil_iff.mpr (by
      intro g hg
      simp [hdelFalse g hg])]
    exact List.append_nil _
  have hkeepLen : keep.length = N := by
    rw [hkeepS, List.length_take]
    have h1 := hpermSL.length_eq
    have : N ≤ S.length := by omega
    omega
  refine ⟨?_, ?_, ?_⟩
  · rw [hfilcomm]
    rw [← (hpermSL.filter pk).length_eq, hSfil, hkeepLen]
  · intro f hf
    exact (List.mem_filter.mp hf).1
  · intro g hg hgp hgnot f hf hfp
    have hgL : g ∈ L := by
      rw [hL]
      exact List.mem_filter.mpr ⟨hg, by simpa using hgp⟩
    have hpkg : pk g = false := by
      by_contra h
      exact hgnot (List.mem_filter.mpr ⟨hg, Bool.of_not_eq_false h⟩)
    have hany : del.any (fun h => h.name = g.name) = true := by
      have := hpkg
      simp only [hpk, Bool.not_eq_false'] at this
      exact this
    rcases List.any_eq_true.mp hany with ⟨d, hd, hdn⟩
    have hdS : d ∈ S := by
      rw [← hStd]
      exact List.mem_append_right keep hd
    have hdL : d ∈ L := hpermSL.mem_iff.mp hdS
    have hdg : d = g :=
      List.inj_on_of_nodup_map hnodupL hdL hgL (by simpa using hdn)
    have hgdel : g ∈ del := hdg ▸ hd
    have hfL : f ∈ L := by
      rw [hL]
      exact List.mem_filter.mpr ⟨(List.mem_filter.mp hf).1, by simpa using hfp⟩
    have hfS : f ∈ S := hpermSL.mem_iff.mpr hfL
    have hfkeep : f ∈ keep := by
      rcases List.mem_append.mp (hStd ▸ hfS) with h | h
      · exact h
      · exfalso
        have h1 := hdelFalse f h
        have h2 := (List.mem_filter.mp hf).2
        rw [h1] at h2
        cases h2
    have hle1 : g.mtime ≤ f.mtime := by
      rw [← hStd] at hsorted
      have := (List.pairwise_append.mp hsorted).2.2 f hfkeep g hgdel
      simpa [hle] using this
    have hne1 : f.mtime ≠ g.mtime := by
      rw [← hStd] at hdistS
      exact (List.pairwise_append.mp hdistS).2.2 f hfkeep g hgdel
    omega

/-- C5: after cleanup with more matching files than `maxFiles`, given the
distinct names of a real directory and pairwise distinct modification
times, exactly `maxFiles` matching files remain; every retained file was
already present, and every deleted matching file is strictly older than
every retained matching file — the retained ones are exactly the most
recently modified, and their count never exceeds the limit. -/
theorem c5_cleanup_keeps_newest (st : Logger.LoggerState)
    (hav : st.fsAvailable = true)
    (hnodup : (st.fs.map Logger.FsFile.name).Nodup)
    (hdist : (st.fs.filter (fun f => Logger.isLogFileName f.name)).Pairwise
      (fun a b => a.mtime ≠ b.mtime))
    (hM : st.config.maxFiles <
      (st.fs.filter (fun f => Logger.isLogFileName f.name)).length) :
    ((Logger.cleanupOldLogs st).fs.filter
      (fun f => Logger.isLogFileName f.name)).length = st.config.maxFiles ∧
    (∀ f ∈ (Logger.cleanupOldLogs st).fs, f ∈ st.fs) ∧
    (∀ g ∈ st.fs, Logger.isLogFileName g.name = true →
      g ∉ (Logger.cleanupOldLogs st).fs →
      ∀ f ∈ (Logger.cleanupOldLogs st).fs,
        Logger.isLogFileName f.name = true → g.mtime < f.mtime) := by
  have hclean : (Logger.cleanupOldLogs st).fs =
      st.fs.filter (fun f =>
        !(((sortBy (fun a b => decide (b.mtime ≤ a.mtime))
          (st.fs.filter (fun f => Logger.isLogFileName f.name))).drop
            st.config.maxFiles).any (fun g => g.name = f.name))) := by
    unfold Logger.cleanupOldLogs
    rw [if_neg (by simp [hav])]
    dsimp only
    rw [if_pos (by rw [(sortBy_perm _ _).length_eq]; exact hM)]
  rw [hclean]
  exact keepNewest_spec st.fs _ st.config.maxFiles rfl hnodup hdist hM

/-- Witness for C5 at a concrete input: three matching files with mtimes
3, 1, 7 and `maxFiles = 1` leave exactly one matching file. -/
theorem c5_witness :
    ((Logger.cleanupOldLogs exStClean).fs.filter
      (fun f => Logger.isLogFileName f.name)).length = 1 :=
  (c5_cleanup_keeps_newest exStClean rfl (by decide) (by decide)
    (by decide)).1
